import Mathlib

/-!
Shallow embedding of the statstash package (pendo-io/statstash) for
specification checking.  The definitions below are translated from the Go
source files of the repository (`statstash.go` as given in
`src/unnamed/part_003`, and `src/librato.go`).

Modelling conventions:
* `time.Time` instants and `time.Duration` values are integers counting
  nanoseconds; the zero `time.Time{}` is `0` (Go durations are int64, and
  `time.Time.Sub` saturates at the int64 bounds, which we model in `goSub`).
* `float64` samples are embedded as exact rationals `ℚ`; float arithmetic is
  idealised as exact arithmetic (`math.Pow (m, 2.0)` becomes `m * m`,
  `math.Ceil (0.9 * n)` becomes the exact ceiling of `9*n/10`).
* memcache values (`[]byte`) are embedded as the typed sum `CVal`: a gob
  encoding of a `[]float64`, of a `time.Time`, of a `StatConfig`, the decimal
  ASCII of a cache counter, or arbitrary raw bytes (`CVal.raw`, representing
  any byte string that gob cannot decode to the requested type).
* cache and datastore are association lists keyed by strings; item
  expirations (TTLs) carry no observable semantics in the claims and are not
  modelled.
* fallible external operations (datastore get/put, cache get/set, the gob
  encoder, the query iterator) are given explicit failure switches in
  `Faults`, so that every error branch of the source is reachable.
-/

namespace Statstash

/-- `StatConfig` from statstash.go (fields Name/Source/Type/LastRead). -/
structure StatConfig where
  name : String
  source : String
  type : String
  lastRead : Int
  deriving DecidableEq, Repr

/-- `StatDataCounter` from statstash.go. -/
structure StatDataCounter where
  cfg : StatConfig
  count : Nat
  deriving DecidableEq, Repr

/-- `StatDataTiming` from statstash.go. -/
structure StatDataTiming where
  cfg : StatConfig
  count : Nat
  min : ℚ
  max : ℚ
  sum : ℚ
  sumSquares : ℚ
  median : ℚ
  ninthDecileValue : ℚ
  ninthDecileSum : ℚ
  ninthDecileCount : Nat
  deriving DecidableEq, Repr

/-- `StatDataGauge` from statstash.go. -/
structure StatDataGauge where
  cfg : StatConfig
  value : ℚ
  deriving DecidableEq, Repr

/-- The heterogeneous `[]interface{}` batch handed to a `StatsFlusher`:
exactly the three summary record variants occur. -/
inductive Datum where
  | counter (c : StatDataCounter)
  | gauge (g : StatDataGauge)
  | timing (t : StatDataTiming)
  deriving DecidableEq, Repr

/-- `defaultAggregationPeriod = 5 * time.Minute`, in nanoseconds. -/
def defaultAggregationPeriod : Int := 300000000000

/-- Go `time.Time.Sub`: the difference saturates at the `time.Duration`
(int64) bounds. -/
def goSub (t u : Int) : Int :=
  if t - u > 9223372036854775807 then 9223372036854775807
  else if t - u < -9223372036854775808 then -9223372036854775808
  else t - u

/-- `getStartOfFlushPeriod` from statstash.go: truncate to the aggregation
period, then offset by whole periods. -/
def getStartOfFlushPeriod (at_ : Int) (offset : Int) : Int :=
  let startOfPeriod := at_ - Int.emod at_ defaultAggregationPeriod
  if offset = 0 then startOfPeriod
  else startOfPeriod + offset * defaultAggregationPeriod

/-- `time.Time.Unix()` for an instant counted in nanoseconds since the zero
time (year 1): seconds since the Unix epoch. -/
def unixOf (t : Int) : Int := Int.ediv t 1000000000 - 62135596800

/-- The part of `StatConfig.BucketKey` before the period timestamp:
`"ss-metric:{type}-{name}-{source}-"`. -/
def bucketKeyStem (sc : StatConfig) : String :=
  "ss-metric:" ++ sc.type ++ "-" ++ sc.name ++ "-" ++ sc.source ++ "-"

/-- `StatConfig.BucketKey(t, offset)` from statstash.go. -/
def StatConfig.BucketKey (sc : StatConfig) (t : Int) (offset : Int) : String :=
  bucketKeyStem sc ++ toString (unixOf (getStartOfFlushPeriod t offset))

/-! ### Timing summarisation (UpdateBackend, timing branch) -/

/-- Ascending sort of the cached `[]float64`; models `sort.Float64s(gm)`
(the sorted list of a multiset of rationals is unique, so the concrete
sorting algorithm is immaterial). -/
def sortAsc (l : List ℚ) : List ℚ := l.insertionSort (· ≤ ·)

/-- The accumulation loop of the timing branch of `UpdateBackend`:
`for i, m := range gm { if i < ninthdecileCount { ninthdecileSum += m };
sum += m; sumSquares += math.Pow(m, 2.0) }` — returns
`(ninthdecileSum, sum, sumSquares)`. -/
def sumsLoop (k : Nat) : Nat → ℚ → ℚ → ℚ → List ℚ → ℚ × ℚ × ℚ
  | _, nds, sum, ss, [] => (nds, sum, ss)
  | i, nds, sum, ss, m :: rest =>
      sumsLoop k (i + 1) (if i < k then nds + m else nds) (sum + m) (ss + m * m) rest

/-- `int(math.Ceil(0.9 * float64(count)))`, computed exactly: equals
`⌈9 * count / 10⌉` (see `ninthDecileCount_eq_ceil`). -/
def ninthDecileCount (count : Nat) : Nat := (9 * count + 9) / 10

/-- The timing branch of `UpdateBackend` in statstash.go (lines 194-221):
sort, take count/min/max/median, the 90th-percentile triple, and the
sum/sum-of-squares loop. -/
def summarizeTiming (cfg : StatConfig) (gm0 : List ℚ) : StatDataTiming :=
  let gm := sortAsc gm0
  let count := gm.length
  let mn := gm.getD 0 0
  let mx := gm.getD (count - 1) 0
  let median :=
    if count = 1 then gm.getD 0 0
    else if count % 2 = 0 then (gm.getD (count / 2 - 1) 0 + gm.getD (count / 2) 0) / 2
    else gm.getD (count / 2) 0
  let ndc := ninthDecileCount count
  let ndv := gm.getD (ndc - 1) 0
  let sums := sumsLoop ndc 0 0 0 0 gm
  { cfg := cfg, count := count, min := mn, max := mx,
    sum := sums.2.1, sumSquares := sums.2.2, median := median,
    ninthDecileValue := ndv, ninthDecileSum := sums.1, ninthDecileCount := ndc }

lemma sumsLoop_eq (k : Nat) (l : List ℚ) : ∀ (i : Nat) (nds sum ss : ℚ),
    sumsLoop k i nds sum ss l =
      (nds + (l.take (k - i)).sum, sum + l.sum, ss + (l.map fun m => m * m).sum) := by
  induction l with
  | nil => intro i nds sum ss; simp [sumsLoop]
  | cons m rest ih =>
    intro i nds sum ss
    by_cases h : i < k
    · have htake : (m :: rest).take (k - i) = m :: rest.take (k - (i + 1)) := by
        have : k - i = (k - (i + 1)) + 1 := by omega
        rw [this, List.take_succ_cons]
      simp only [sumsLoop, if_pos h, ih, htake, List.sum_cons, List.map_cons,
        Prod.mk.injEq]
      refine ⟨by ring, by ring, by ring⟩
    · have hki : k - i = 0 := by omega
      have hki1 : k - (i + 1) = 0 := by omega
      simp only [sumsLoop, if_neg h, ih, hki, hki1, List.take_zero, List.sum_nil,
        List.sum_cons, List.map_cons, Prod.mk.injEq]
      refine ⟨by ring, by ring, by ring⟩

lemma ninthDecileCount_eq_ceil (n : Nat) :
    ninthDecileCount n = ⌈(9 * n : ℚ) / 10⌉₊ := by
  have hdm := Nat.div_add_mod (9 * n + 9) 10
  have hmod : (9 * n + 9) % 10 < 10 := Nat.mod_lt _ (by norm_num)
  rcases Nat.eq_zero_or_pos n with h0 | hpos
  · subst h0; simp [ninthDecileCount]
  · set m := (9 * n + 9) / 10 with hm
    have h1 : 10 * m ≤ 9 * n + 9 := by omega
    have h2 : 9 * n + 9 < 10 * m + 10 := by omega
    have hm0 : m ≠ 0 := by omega
    have hceil : ⌈(9 * n : ℚ) / 10⌉₊ = m := by
      rw [Nat.ceil_eq_iff hm0]
      have hcast1 : ((10 * m : ℕ) : ℚ) ≤ ((9 * n + 9 : ℕ) : ℚ) := by exact_mod_cast h1
      push_cast at hcast1
      constructor
      · have h1m : (1 : ℕ) ≤ m := by omega
        rw [Nat.cast_sub h1m, lt_div_iff₀ (by norm_num : (0:ℚ) < 10)]
        push_cast
        linarith
      · have hnat : 9 * n ≤ m * 10 := by omega
        rw [div_le_iff₀ (by norm_num : (0:ℚ) < 10)]
        exact_mod_cast hnat
    rw [hceil, hm]
    rfl

/-- C1: For every timing bucket flushed by UpdateBackend whose cached value
decodes to a non-empty float64 list `X` with `n = |X|` and `S` the ascending
sort of `X`, the emitted `StatDataTiming` satisfies `Count = n`,
`Min = S[0]`, `Max = S[n-1]`, `Sum = Σ X`, `SumSquares = Σ x²`,
`Median = S[0]` when `n = 1`, `(S[n/2-1] + S[n/2])/2` when `n` is even and
`S[n/2]` when `n` is odd, and with `k = ⌈0.9·n⌉`: `NinthDecileCount = k`,
`NinthDecileValue = S[k-1]` and `NinthDecileSum = Σ_{i<k} S[i]`. -/
theorem timing_summary_correct (cfg : StatConfig) (X : List ℚ) (hX : X ≠ []) :
    let d := summarizeTiming cfg X
    let n := X.length
    let S := sortAsc X
    let k := ⌈(9 * n : ℚ) / 10⌉₊
    d.count = n ∧ d.min = S.getD 0 0 ∧ d.max = S.getD (n - 1) 0 ∧
    d.sum = X.sum ∧ d.sumSquares = (X.map fun x => x * x).sum ∧
    d.median = (if n = 1 then S.getD 0 0
      else if n % 2 = 0 then (S.getD (n / 2 - 1) 0 + S.getD (n / 2) 0) / 2
      else S.getD (n / 2) 0) ∧
    d.ninthDecileCount = k ∧ d.ninthDecileValue = S.getD (k - 1) 0 ∧
    d.ninthDecileSum = (S.take k).sum := by
  have hperm : List.Perm (sortAsc X) X := List.perm_insertionSort (· ≤ ·) X
  have hlen : (sortAsc X).length = X.length := hperm.length_eq
  have hsum : (sortAsc X).sum = X.sum := hperm.sum_eq
  have hsq : ((sortAsc X).map fun x => x * x).sum = (X.map fun x => x * x).sum :=
    (hperm.map _).sum_eq
  have hk := ninthDecileCount_eq_ceil X.length
  simp only [summarizeTiming, sumsLoop_eq, Nat.sub_zero, zero_add, hlen, hk, hsum, hsq]
  trivial

/-- A sample metric configuration used by concrete witnesses. -/
def sampleCfg : StatConfig := { name := "t", source := "", type := "timing", lastRead := 0 }

theorem timing_summary_correct_witness :
    (([1, 3, 2] : List ℚ) ≠ []) ∧
    (let d := summarizeTiming sampleCfg [1, 3, 2]
     let n := ([1, 3, 2] : List ℚ).length
     let S := sortAsc [1, 3, 2]
     let k := ⌈(9 * n : ℚ) / 10⌉₊
     d.count = n ∧ d.min = S.getD 0 0 ∧ d.max = S.getD (n - 1) 0 ∧
     d.sum = ([1, 3, 2] : List ℚ).sum ∧
     d.sumSquares = (([1, 3, 2] : List ℚ).map fun x => x * x).sum ∧
     d.median = (if n = 1 then S.getD 0 0
       else if n % 2 = 0 then (S.getD (n / 2 - 1) 0 + S.getD (n / 2) 0) / 2
       else S.getD (n / 2) 0) ∧
     d.ninthDecileCount = k ∧ d.ninthDecileValue = S.getD (k - 1) 0 ∧
     d.ninthDecileSum = (S.take k).sum) :=
  ⟨by decide, timing_summary_correct sampleCfg [1, 3, 2] (by decide)⟩

/-! ### Counter summarisation (UpdateBackend, counter branch) and
Go `strconv.ParseUint(s, 10, 64)` -/

/-- Go's maximum uint64 value, `1<<64 - 1`. -/
def uint64Max : Nat := 18446744073709551615

/-- Digit value `c - '0'`. -/
def dval (c : Char) : Nat := c.toNat - 48

/-- The scanning loop of Go `strconv.ParseUint(s, 10, 64)`: on the first
non-digit byte it stops with `(0, false)` (syntax error); when the
accumulated value would exceed `uint64Max` it stops with
`(uint64Max, false)` (range error: Go returns the *max magnitude* value,
not 0); otherwise it returns the parsed value and `true`. -/
def parseLoop : List Char → Nat → Nat × Bool
  | [], n => (n, true)
  | c :: cs, n =>
    if c.isDigit then
      if n * 10 + dval c > uint64Max then (uint64Max, false)
      else parseLoop cs (n * 10 + dval c)
    else (0, false)

/-- Go `strconv.ParseUint(s, 10, 64)` as the pair (returned value, ok):
the empty string is a syntax error with value 0. -/
def goParseUint64 (s : String) : Nat × Bool :=
  if s.data.isEmpty then (0, false) else parseLoop s.data 0

/-- The counter branch of `UpdateBackend` (statstash.go line 226):
`count, _ := strconv.ParseUint(string(item.Value), 10, 64)` — the parse
error is discarded and whatever value ParseUint returned is emitted. -/
def counterSummary (cfg : StatConfig) (bytes : String) : StatDataCounter :=
  { cfg := cfg, count := (goParseUint64 bytes).1 }

/-- The mathematical value of a digit string read most-significant first. -/
def foldVal (acc : Nat) (l : List Char) : Nat :=
  l.foldl (fun a c => a * 10 + dval c) acc

/-- The mathematical value of a string of decimal digits. -/
def digitsVal (s : String) : Nat := foldVal 0 s.data

lemma foldVal_ge (l : List Char) : ∀ acc, acc ≤ foldVal acc l := by
  induction l with
  | nil => intro acc; simp [foldVal]
  | cons c cs ih =>
    intro acc
    have h1 : acc ≤ acc * 10 + dval c := by omega
    have h2 := ih (acc * 10 + dval c)
    simp only [foldVal, List.foldl_cons] at h2 ⊢
    omega

lemma parseLoop_digits (l : List Char) : ∀ acc, acc ≤ uint64Max →
    (∀ c ∈ l, c.isDigit = true) →
    parseLoop l acc =
      if foldVal acc l ≤ uint64Max then (foldVal acc l, true)
      else (uint64Max, false) := by
  induction l with
  | nil => intro acc hacc _; simp [parseLoop, foldVal, hacc]
  | cons c cs ih =>
    intro acc hacc hd
    have hc : c.isDigit = true := hd c (List.mem_cons_self c cs)
    have hfold : foldVal acc (c :: cs) = foldVal (acc * 10 + dval c) cs := by
      simp [foldVal]
    by_cases hbig : acc * 10 + dval c > uint64Max
    · have hge := foldVal_ge cs (acc * 10 + dval c)
      have : ¬ foldVal acc (c :: cs) ≤ uint64Max := by rw [hfold]; omega
      simp [parseLoop, hc, hbig, this]
    · have hrec := ih (acc * 10 + dval c) (by omega)
        (fun x hx => hd x (List.mem_cons_of_mem c hx))
      simp [parseLoop, hc, hbig, hrec, hfold]

lemma parseLoop_junk (l : List Char) : ∀ acc,
    (¬ ∀ c ∈ l, c.isDigit = true) →
    foldVal acc (l.takeWhile (fun c => c.isDigit)) ≤ uint64Max →
    parseLoop l acc = (0, false) := by
  induction l with
  | nil => intro acc hjunk _; exact absurd (by simp) hjunk
  | cons c cs ih =>
    intro acc hjunk hpre
    by_cases hc : c.isDigit = true
    · have htw : (c :: cs).takeWhile (fun c => c.isDigit) =
          c :: cs.takeWhile (fun c => c.isDigit) := by
        simp [List.takeWhile_cons, hc]
      rw [htw] at hpre
      have hfold : foldVal acc (c :: cs.takeWhile (fun c => c.isDigit)) =
          foldVal (acc * 10 + dval c) (cs.takeWhile (fun c => c.isDigit)) := by
        simp [foldVal]
      rw [hfold] at hpre
      have hge := foldVal_ge (cs.takeWhile (fun c => c.isDigit)) (acc * 10 + dval c)
      have hbig : ¬ acc * 10 + dval c > uint64Max := by omega
      have hjunk2 : ¬ ∀ x ∈ cs, x.isDigit = true := by
        intro hall
        exact hjunk (fun x hx => by
          rcases List.mem_cons.mp hx with h | h
          · subst h; exact hc
          · exact hall x h)
      simp [parseLoop, hc, hbig, ih (acc * 10 + dval c) hjunk2 hpre]
    · simp [parseLoop, hc]

/-- C7 counterexample: the byte string `"18446744073709551616"` (2^64) does
not parse as a uint64, yet the Count emitted by the counter branch of
UpdateBackend is `2^64 - 1` (Go's ParseUint returns the max value on a
range error, and the error is discarded), not 0 as the claim states. -/
theorem counter_parse_overflow_not_zero :
    (goParseUint64 "18446744073709551616").2 = false ∧
    (counterSummary sampleCfg "18446744073709551616").count = 18446744073709551615 ∧
    (18446744073709551615 : Nat) ≠ 0 := by
  refine ⟨by decide, by decide, by decide⟩

/-- C7 (amended): when UpdateBackend summarises a counter bucket, the
emitted `StatDataCounter.Count` is the value component of Go's
`ParseUint(bytes, 10, 64)`: the parsed value for a non-empty all-digit
string within uint64 range; `2^64 - 1` for an all-digit string exceeding
the uint64 range (range error); and `0` for the empty string or for a
string containing a non-digit byte that is reached before the accumulated
value overflows (syntax error). -/
theorem counter_parse_characterization (cfg : StatConfig) (s : String) :
    ((counterSummary cfg s).count = (goParseUint64 s).1) ∧
    (s.data ≠ [] → (∀ c ∈ s.data, c.isDigit = true) → digitsVal s ≤ uint64Max →
      (counterSummary cfg s).count = digitsVal s ∧ (goParseUint64 s).2 = true) ∧
    ((∀ c ∈ s.data, c.isDigit = true) → uint64Max < digitsVal s →
      (counterSummary cfg s).count = uint64Max ∧ (goParseUint64 s).2 = false) ∧
    ((¬ ∀ c ∈ s.data, c.isDigit = true) →
      foldVal 0 (s.data.takeWhile (fun c => c.isDigit)) ≤ uint64Max →
      (counterSummary cfg s).count = 0 ∧ (goParseUint64 s).2 = false) ∧
    (s.data = [] → (counterSummary cfg s).count = 0 ∧ (goParseUint64 s).2 = false) := by
  refine ⟨rfl, ?_, ?_, ?_, ?_⟩
  · intro hne hdig hle
    have hempty : ¬ s.data.isEmpty = true := by
      cases hd : s.data with
      | nil => exact absurd hd hne
      | cons a l => simp [hd]
    have := parseLoop_digits s.data 0 (by simp [uint64Max]) hdig
    rw [if_pos (by simpa [digitsVal] using hle)] at this
    constructor
    · simp [counterSummary, goParseUint64, hempty, this, digitsVal]
    · simp [goParseUint64, hempty, this]
  · intro hdig hgt
    have hne : s.data ≠ [] := by
      intro hd
      simp [digitsVal, foldVal, hd, uint64Max] at hgt
    have hempty : ¬ s.data.isEmpty = true := by
      cases hd : s.data with
      | nil => exact absurd hd hne
      | cons a l => simp [hd]
    have := parseLoop_digits s.data 0 (by simp [uint64Max]) hdig
    rw [if_neg (by simp [digitsVal] at hgt ⊢; omega)] at this
    constructor
    · simp [counterSummary, goParseUint64, hempty, this]
    · simp [goParseUint64, hempty, this]
  · intro hjunk hpre
    have hne : s.data ≠ [] := by
      intro hd
      exact hjunk (by rw [hd]; intro c hc; simp at hc)
    have hempty : ¬ s.data.isEmpty = true := by
      cases hd : s.data with
      | nil => exact absurd hd hne
      | cons a l => simp [hd]
    have := parseLoop_junk s.data 0 hjunk hpre
    constructor
    · simp [counterSummary, goParseUint64, hempty, this]
    · simp [goParseUint64, hempty, this]
  · intro hd
    have hempty : s.data.isEmpty = true := by simp [hd]
    constructor
    · simp [counterSummary, goParseUint64, hempty]
    · simp [goParseUint64, hempty]

theorem counter_parse_characterization_witness :
    (("123" : String).data ≠ [] ∧ (∀ c ∈ ("123" : String).data, c.isDigit = true) ∧
      digitsVal "123" ≤ uint64Max) ∧
    ((counterSummary sampleCfg "123").count = digitsVal "123" ∧
      (goParseUint64 "123").2 = true) :=
  ⟨by decide,
   (counter_parse_characterization sampleCfg "123").2.1 (by decide) (by decide) (by decide)⟩

/-! ### The cache / datastore state model -/

/-- A memcache value (`[]byte`), as a typed sum of the encodings the package
stores: the gob encoding of a `[]float64`, of a `time.Time` or of a
`StatConfig`, the decimal ASCII of a cache counter, or arbitrary other
bytes (`raw`), which gob fails to decode to any of the requested types. -/
inductive CVal where
  | floats (l : List ℚ)
  | time (t : Int)
  | config (sc : StatConfig)
  | counter (n : Nat)
  | raw (bytes : String)
  deriving DecidableEq, Repr

/-- `gob.Decode` into a `*[]float64`: succeeds exactly on the gob encoding
of a float list. -/
def decodeFloats : CVal → Option (List ℚ)
  | .floats l => some l
  | _ => none

/-- `gob.Decode` into a `*time.Time`. -/
def decodeTime : CVal → Option Int
  | .time t => some t
  | _ => none

/-- `gob.Decode` into a `*StatConfig`. -/
def decodeConfig : CVal → Option StatConfig
  | .config sc => some sc
  | _ => none

/-- `string(item.Value)`: the raw bytes of a cache value.  Counter values
are their decimal ASCII; gob encodings are binary junk that certainly does
not parse as a decimal number, modelled by the fixed placeholder "gob". -/
def cvalBytes : CVal → String
  | .raw s => s
  | .counter n => toString n
  | _ => "gob"

/-- The memcache, as an association list (later bindings shadow earlier
ones; `alookup` sees the most recent `cset`). -/
abbrev Cache := List (String × CVal)

/-- The datastore contents for kind "StatConfig", keyed by the key name
`"{type}-{name}-{source}"`. -/
abbrev DStore := List (String × StatConfig)

/-- Association-list lookup (first match wins). -/
def alookup {α : Type} : List (String × α) → String → Option α
  | [], _ => none
  | (k2, v) :: rest, k => if k2 = k then some v else alookup rest k

/-- `cache.Set`: unconditionally (re)bind a key. -/
def cset (c : Cache) (k : String) (v : CVal) : Cache := (k, v) :: c

/-- `cache.Add`: bind a key only when it is absent. -/
def cacheAdd (c : Cache) (k : String) (v : CVal) : Cache :=
  match alookup c k with
  | some _ => c
  | none => (k, v) :: c

/-- `datastore.Put`: replace the entity under the key, or append it. -/
def dsPut : DStore → String → StatConfig → DStore
  | [], k, v => [(k, v)]
  | (k2, v2) :: rest, k, v =>
    if k2 = k then (k, v) :: rest else (k2, v2) :: dsPut rest k v

/-- The state the statstash operations act on. -/
structure St where
  cache : Cache
  ds : DStore
  deriving DecidableEq, Repr

/-- Failure switches for the external collaborators (cache, datastore, gob
encoder, query iterator).  Each switch makes the corresponding operation
fail, reaching the matching error branch of the source. -/
structure Faults where
  cacheGetErr : Bool
  cacheSetErr : Bool
  getMultiErr : Bool
  dsGetErr : Bool
  dsPutErr : Bool
  dsIterErr : Bool
  confMarshalErr : Bool
  floatsMarshalErr : Bool
  deriving DecidableEq, Repr

/-- All collaborators behave. -/
def noFaults : Faults :=
  { cacheGetErr := false, cacheSetErr := false, getMultiErr := false,
    dsGetErr := false, dsPutErr := false, dsIterErr := false,
    confMarshalErr := false, floatsMarshalErr := false }

/-- Errors `getStatConfig` can return: the gob decode of a cached config
failed, or the datastore Get failed with a real (non-missing) error. -/
inductive CfgErr where
  | decode
  | dsGet
  deriving DecidableEq, Repr

/-- `getStatConfigKeyName` from statstash.go: `"{type}-{name}-{source}"`. -/
def getStatConfigKeyName (typ name source : String) : String :=
  typ ++ "-" ++ name ++ "-" ++ source

/-- `getStatConfigMemcacheKey` from statstash.go: `"ss-conf:{keyname}"`. -/
def getStatConfigMemcacheKey (typ name source : String) : String :=
  "ss-conf:" ++ getStatConfigKeyName typ name source

/-- The zero `StatConfig{}` value. -/
def emptyConfig : StatConfig := { name := "", source := "", type := "", lastRead := 0 }

/-- `getStatConfig` from statstash.go (lines 332-382).  NOTE (faithful to
the source): on a config-cache miss the routine unconditionally sets
`sc.LastRead = now` and unconditionally Puts the record back to the
datastore — the code has no 48h freshness check (its comments about
writing "if it needed the update" are stale).  When the datastore Put
succeeded but the gob encoding for the config cache fails, it returns
`StatConfig{}, nil`. -/
def getStatConfig (typ name source : String) (now : Int) (st : St) (f : Faults) :
    Except CfgErr StatConfig × St :=
  let mk := getStatConfigMemcacheKey typ name source
  match (if f.cacheGetErr then none else alookup st.cache mk) with
  | some v =>
    -- memcache hit: decode and return
    match decodeConfig v with
    | some sc => (.ok sc, st)
    | none => (.error .decode, st)
  | none =>
    -- memcache miss (or Get error): query the datastore
    if f.dsGetErr then (.error .dsGet, st)
    else
      let k := getStatConfigKeyName typ name source
      let sc0 :=
        match alookup st.ds k with
        | some sc => sc
        | none => { name := name, source := source, type := typ, lastRead := 0 }
      let sc := { sc0 with lastRead := now }
      if f.dsPutErr then
        -- Put failed: log, skip caching, still return (sc, nil)
        (.ok sc, st)
      else
        let st2 : St := { st with ds := dsPut st.ds k sc }
        if f.confMarshalErr then
          -- gob encode for the config cache failed: return StatConfig{}, nil
          (.ok emptyConfig, st2)
        else
          (.ok sc, { st2 with cache := cacheAdd st2.cache mk (.config sc) })

/-! ### Recorder -/

/-- Causes a recording to be dropped (`ErrStatDropped` wraps these). -/
inductive DropCause where
  | cfg (e : CfgErr)
  | cacheGet
  | marshal
  | cacheSet
  deriving DecidableEq, Repr

/-- Errors of `recordGaugeOrTiming`. -/
inductive RecErr where
  | notSampled
  | dropped (cause : DropCause)
  deriving DecidableEq, Repr

/-- The bucket write of `recordGaugeOrTiming` (statstash.go lines 457-497),
after the bucket key has been resolved: read the cached list (a miss starts
from the empty list; a real Get error is a drop), mutate (timing appends,
gauge replaces with a singleton), encode and `Set` unconditionally.
NOTE (faithful to the source): the gob-decode error of a cached value is
silently ignored — the source tests the stale `err` from `cache.Get`, which
is nil on this path — so an undecodable bucket behaves like an empty one. -/
def recordToBucket (typ bucketKey : String) (value : ℚ) (st : St) (f : Faults) :
    Except RecErr Unit × St :=
  if f.cacheGetErr then (.error (.dropped .cacheGet), st)
  else
    let cached :=
      match alookup st.cache bucketKey with
      | none => ([] : List ℚ)
      | some v => (decodeFloats v).getD []
    let mutated :=
      if typ = "timing" then cached ++ [value]
      else if typ = "gauge" then [value]
      else cached
    if f.floatsMarshalErr then (.error (.dropped .marshal), st)
    else if f.cacheSetErr then (.error (.dropped .cacheSet), st)
    else (.ok (), { st with cache := cset st.cache bucketKey (.floats mutated) })

/-- `recordGaugeOrTiming` from statstash.go (lines 438-498).  `draw` is the
value of `randGen.Float64()` consumed when `sampleRate < 1.0`. -/
def recordGaugeOrTiming (typ name source : String) (value sampleRate draw : ℚ)
    (now : Int) (st : St) (f : Faults) : Except RecErr Unit × St :=
  if sampleRate < 1 ∧ draw > sampleRate then (.error .notSampled, st)
  else
    match getStatConfig typ name source now st f with
    | (.error e, st2) => (.error (.dropped (.cfg e)), st2)
    | (.ok sc, st2) => recordToBucket typ (sc.BucketKey now 0) value st2 f

/-- `RecordGauge` from statstash.go: gauge write with sample rate 1.0. -/
def RecordGauge (name source : String) (value draw : ℚ) (now : Int) (st : St)
    (f : Faults) : Except RecErr Unit × St :=
  recordGaugeOrTiming "gauge" name source value 1 draw now st f

/-- `RecordTiming` from statstash.go. -/
def RecordTiming (name source : String) (value sampleRate draw : ℚ) (now : Int)
    (st : St) (f : Faults) : Except RecErr Unit × St :=
  recordGaugeOrTiming "timing" name source value sampleRate draw now st f

/-- Modelled from the spec: the cache `Increment` capability of §6
(`Increment(key, delta:int64, initial:uint64) → new|err`, atomic), whose
concrete provider (appwrap) is not part of this repository.  Following the
App Engine memcache semantics the spec's capability abstracts: a missing
item is initialised to `initial` before the delta is applied; addition
wraps at 2^64; subtraction caps at zero; a non-numeric value is an error. -/
def applyDelta (base : Nat) (delta : Int) : Nat :=
  if 0 ≤ delta then (base + delta.toNat) % 18446744073709551616
  else base - delta.natAbs

/-- Modelled from the spec: `cache.Increment` on the current value of the
bucket key (see `applyDelta`); returns the new value or an error. -/
def cacheIncrement (old : Option CVal) (delta : Int) (initial : Nat) :
    Except Unit Nat :=
  match old with
  | none => .ok (applyDelta initial delta)
  | some (.counter n) => .ok (applyDelta n delta)
  | some _ => .error ()

/-- Errors of `IncrementCounterBy`: the bucket-key resolution failed (the
error is returned unwrapped), or the cache increment failed. -/
inductive IncErr where
  | cfg (e : CfgErr)
  | increment
  deriving DecidableEq, Repr

/-- `IncrementCounterBy` from statstash.go (lines 128-141): resolve the
counter bucket key, then `cache.Increment(bucketKey, delta, 0)`; an
increment failure is logged and the error returned. -/
def IncrementCounterBy (name source : String) (delta : Int) (now : Int)
    (st : St) (f : Faults) : Except IncErr Unit × St :=
  match getStatConfig "counter" name source now st f with
  | (.error e, st2) => (.error (.cfg e), st2)
  | (.ok sc, st2) =>
    let bk := sc.BucketKey now 0
    match cacheIncrement (alookup st2.cache bk) delta 0 with
    | .error _ => (.error .increment, st2)
    | .ok n => (.ok (), { st2 with cache := cset st2.cache bk (.counter n) })

/-- `IncrementCounter` from statstash.go: `IncrementCounterBy(…, 1)`. -/
def IncrementCounter (name source : String) (now : Int) (st : St) (f : Faults) :
    Except IncErr Unit × St :=
  IncrementCounterBy name source 1 now st f

/-- The stored count of a counter bucket (0 when absent or non-numeric). -/
def bucketCount (c : Cache) (k : String) : Nat :=
  match alookup c k with
  | some (.counter n) => n
  | _ => 0

/-! ### Flusher -/

/-- `getLastPeriodFlushed` from statstash.go (lines 500-512): read `ss-lpf`
from the cache; a Get error or a failed gob decode yields the zero time. -/
def getLastPeriodFlushed (c : Cache) (f : Faults) : Int :=
  if f.cacheGetErr then 0
  else
    match alookup c "ss-lpf" with
    | none => 0
    | some v => (decodeTime v).getD 0

/-- `updateLastPeriodFlushed` from statstash.go (lines 514-525): gob-encode
the instant and `Set` it under `ss-lpf`; a Set failure leaves the cache
unchanged (UpdateBackend discards this function's error). -/
def updateLastPeriodFlushed (lastPeriodFlushed : Int) (c : Cache) (f : Faults) :
    Cache :=
  if f.cacheSetErr then c else cset c "ss-lpf" (.time lastPeriodFlushed)

/-- Association-list insert with map (overwrite) semantics, used to build
the `map[string]StatConfig` of `getActiveConfigs`. -/
def assocSet : List (String × StatConfig) → String → StatConfig →
    List (String × StatConfig)
  | [], k, v => [(k, v)]
  | (k2, v2) :: rest, k, v =>
    if k2 = k then (k, v) :: rest else (k2, v2) :: assocSet rest k v

/-- The query loop of `getActiveConfigs` (statstash.go lines 285-309):
entities of kind StatConfig with `LastRead > at − 48h`, each inserted into
the map under its bucket key (48h = 172800000000000 ns). -/
def activeConfigList (ds : DStore) (at_ : Int) (offset : Int) :
    List (String × StatConfig) :=
  ds.foldl
    (fun m e =>
      if e.2.lastRead > at_ - 172800000000000 then assocSet m (e.2.BucketKey at_ offset) e.2
      else m)
    []

/-- Error results of `UpdateBackend`, including the two `panic` calls of the
source (which abort with no state change and no sink call). -/
inductive UBErr where
  | tooSoon
  | activeCfg
  | sink
  | panicEmptyList
  | panicBadType
  deriving DecidableEq, Repr

/-- The per-item summarisation loop of `UpdateBackend` (lines 180-232):
timing/gauge buckets are gob-decoded (a failed decode skips the bucket; an
empty decoded list panics), counter buckets are `ParseUint`ed; an unknown
config type panics. -/
def buildData : List (StatConfig × CVal) → Except UBErr (List Datum)
  | [] => .ok []
  | (cfg, v) :: rest =>
    if cfg.type = "timing" ∨ cfg.type = "gauge" then
      match decodeFloats v with
      | none => buildData rest
      | some gm =>
        if gm.isEmpty then .error .panicEmptyList
        else
          let d := if cfg.type = "timing" then Datum.timing (summarizeTiming cfg gm)
                   else Datum.gauge { cfg := cfg, value := gm.getD 0 0 }
          match buildData rest with
          | .error e => .error e
          | .ok ds2 => .ok (d :: ds2)
    else if cfg.type = "counter" then
      match buildData rest with
      | .error e => .error e
      | .ok ds2 => .ok (Datum.counter (counterSummary cfg (cvalBytes v)) :: ds2)
    else .error .panicBadType

/-- `cache.GetMulti` over the bucket keys of the active-config map, paired
with each key's config: the items found in the cache, in map order. -/
def getMultiWithCfg (c : Cache) (cfgMap : List (String × StatConfig)) :
    List (StatConfig × CVal) :=
  cfgMap.filterMap (fun e => (alookup c e.1).map (fun v => (e.2, v)))

instance {ε α : Type} [DecidableEq ε] [DecidableEq α] : DecidableEq (Except ε α) :=
  fun x y =>
    match x, y with
    | .ok a, .ok b =>
      if h : a = b then .isTrue (by rw [h]) else .isFalse (fun hh => h (Except.ok.inj hh))
    | .error a, .error b =>
      if h : a = b then .isTrue (by rw [h]) else .isFalse (fun hh => h (Except.error.inj hh))
    | .ok _, .error _ => .isFalse (fun hh => Except.noConfusion hh)
    | .error _, .ok _ => .isFalse (fun hh => Except.noConfusion hh)

/-- The outcome of `UpdateBackend`: the returned error value, the final
state, every batch handed to `flusher.Flush`, and whether the datastore was
queried. -/
structure UBOut where
  res : Except UBErr Unit
  st : St
  sinkCalls : List (List Datum)
  dsQueried : Bool
  deriving DecidableEq, Repr

/-- `UpdateBackend` from statstash.go (lines 151-247).  `flusher` is the
sink oracle (`true` = Flush returned nil).  Control flow: the too-soon gate
(unless forced); active-config enumeration (an iterator error aborts);
nothing to do on an empty map; a GetMulti error is logged and the call
returns nil; the summary batch is built (see `buildData`); a non-empty
batch is flushed, and only on sink success is `ss-lpf` advanced. -/
def UpdateBackend (periodStart : Int) (flusher : List Datum → Bool) (force : Bool)
    (st : St) (f : Faults) : UBOut :=
  if ¬force ∧ goSub periodStart (getLastPeriodFlushed st.cache f) < defaultAggregationPeriod then
    { res := .error .tooSoon, st := st, sinkCalls := [], dsQueried := false }
  else if f.dsIterErr then
    { res := .error .activeCfg, st := st, sinkCalls := [], dsQueried := true }
  else
    let cfgMap := activeConfigList st.ds periodStart 0
    if cfgMap.isEmpty then
      { res := .ok (), st := st, sinkCalls := [], dsQueried := true }
    else if f.getMultiErr then
      { res := .ok (), st := st, sinkCalls := [], dsQueried := true }
    else
      match buildData (getMultiWithCfg st.cache cfgMap) with
      | .error e => { res := .error e, st := st, sinkCalls := [], dsQueried := true }
      | .ok data =>
        if data.isEmpty then
          { res := .ok (), st := st, sinkCalls := [], dsQueried := true }
        else if flusher data then
          { res := .ok (),
            st := { st with cache := updateLastPeriodFlushed periodStart st.cache f },
            sinkCalls := [data], dsQueried := true }
        else
          { res := .error .sink, st := st, sinkCalls := [data], dsQueried := true }

/-! ### The Librato HTTP sink (librato.go) -/

/-- A form value as it appears in the POST data: a string field, an integer
rendered by Sprintf %d, or a float rendered by Sprintf %f. -/
inductive FVal where
  | str (s : String)
  | nat (n : Nat)
  | rat (q : ℚ)
  deriving DecidableEq, Repr

/-- `getPostKey(typ, field, i) = "{typ}[{i}][{field}]"` from librato.go. -/
def getPostKey (typ field : String) (i : Nat) : String :=
  typ ++ "[" ++ toString i ++ "][" ++ field ++ "]"

/-- The encoding loop of `LibratoStatsFlusher.Flush` (librato.go lines
43-94), as the ordered sequence of `postdata.Add` calls; `gaugeCount` and
`counterCount` are the two running family indices. -/
def libratoEncode : List Datum → Nat → Nat → List (String × FVal)
  | [], _, _ => []
  | .counter sdc :: rest, gaugeCount, counterCount =>
    ([(getPostKey "counters" "name" counterCount, .str sdc.cfg.name),
      (getPostKey "counters" "value" counterCount, .nat sdc.count)] ++
     (if sdc.cfg.source ≠ "" then
        [(getPostKey "counters" "source" counterCount, .str sdc.cfg.source)]
      else [])) ++
    libratoEncode rest gaugeCount (counterCount + 1)
  | .gauge sdg :: rest, gaugeCount, counterCount =>
    ([(getPostKey "gauges" "name" gaugeCount, .str sdg.cfg.name),
      (getPostKey "gauges" "value" gaugeCount, .rat sdg.value)] ++
     (if sdg.cfg.source ≠ "" then
        [(getPostKey "gauges" "source" gaugeCount, .str sdg.cfg.source)]
      else [])) ++
    libratoEncode rest (gaugeCount + 1) counterCount
  | .timing sdt :: rest, gaugeCount, counterCount =>
    ([(getPostKey "gauges" "name" gaugeCount, .str sdt.cfg.name),
      (getPostKey "gauges" "count" gaugeCount, .nat sdt.count),
      (getPostKey "gauges" "min" gaugeCount, .rat sdt.min),
      (getPostKey "gauges" "max" gaugeCount, .rat sdt.max),
      (getPostKey "gauges" "sum" gaugeCount, .rat sdt.sum),
      (getPostKey "gauges" "sum_squares" gaugeCount, .rat sdt.sumSquares)] ++
     (if sdt.cfg.source ≠ "" then
        [(getPostKey "gauges" "source" gaugeCount, .str sdt.cfg.source)]
      else []) ++
     ([(getPostKey "gauges" "name" (gaugeCount + 1), .str (sdt.cfg.name ++ ".90")),
       (getPostKey "gauges" "count" (gaugeCount + 1), .nat sdt.ninthDecileCount),
       (getPostKey "gauges" "max" (gaugeCount + 1), .rat sdt.ninthDecileValue),
       (getPostKey "gauges" "sum" (gaugeCount + 1), .rat sdt.ninthDecileSum)] ++
      (if sdt.cfg.source ≠ "" then
         [(getPostKey "gauges" "source" (gaugeCount + 1), .str sdt.cfg.source)]
       else []))) ++
    libratoEncode rest (gaugeCount + 2) counterCount

/-- The two Librato metric families. -/
inductive MetricFamily where
  | counters
  | gauges
  deriving DecidableEq, Repr

/-- The claimed wire shape of one form-encoded record: its family and its
ordered (field, value) pairs, not yet indexed. -/
structure WireRecord where
  fam : MetricFamily
  fields : List (String × FVal)
  deriving DecidableEq, Repr

/-- Wire-spec description (from the claim): the primary gauge entry of a
timing summary — name, count, min, max, sum, sum_squares, and source only
when non-empty. -/
def specTimingPrimary (t : StatDataTiming) : WireRecord :=
  { fam := .gauges,
    fields :=
      [("name", .str t.cfg.name), ("count", .nat t.count), ("min", .rat t.min),
       ("max", .rat t.max), ("sum", .rat t.sum), ("sum_squares", .rat t.sumSquares)] ++
      (if t.cfg.source ≠ "" then [("source", .str t.cfg.source)] else []) }

/-- Wire-spec description (from the claim): the `.90` companion gauge entry
of a timing summary — name+".90", count = NinthDecileCount,
max = NinthDecileValue, sum = NinthDecileSum, and source only when
non-empty. -/
def specTimingCompanion (t : StatDataTiming) : WireRecord :=
  { fam := .gauges,
    fields :=
      [("name", .str (t.cfg.name ++ ".90")), ("count", .nat t.ninthDecileCount),
       ("max", .rat t.ninthDecileValue), ("sum", .rat t.ninthDecileSum)] ++
      (if t.cfg.source ≠ "" then [("source", .str t.cfg.source)] else []) }

/-- Wire-spec description (from the claim): the records each summary datum
contributes — one counter record, one gauge record, or, for a timing
summary, exactly two gauge records: the primary followed by the `.90`
companion. -/
def wireRecords : Datum → List WireRecord
  | .counter c =>
    [{ fam := .counters,
       fields := [("name", .str c.cfg.name), ("value", .nat c.count)] ++
         (if c.cfg.source ≠ "" then [("source", .str c.cfg.source)] else []) }]
  | .gauge g =>
    [{ fam := .gauges,
       fields := [("name", .str g.cfg.name), ("value", .rat g.value)] ++
         (if g.cfg.source ≠ "" then [("source", .str g.cfg.source)] else []) }]
  | .timing t => [specTimingPrimary t, specTimingCompanion t]

/-- Wire-spec description (from the claim): emit records, assigning each
record the next free index of its own family — i.e. indices in
first-appearance order within each family. -/
def emitRecords : List WireRecord → Nat → Nat → List (String × FVal)
  | [], _, _ => []
  | r :: rs, gi, ci =>
    match r.fam with
    | .gauges =>
      r.fields.map (fun fv => (getPostKey "gauges" fv.1 gi, fv.2)) ++ emitRecords rs (gi + 1) ci
    | .counters =>
      r.fields.map (fun fv => (getPostKey "counters" fv.1 ci, fv.2)) ++ emitRecords rs gi (ci + 1)

/-- Wire-spec description (from the claim) of the whole batch encoding. -/
def specLibratoEncode (data : List Datum) : List (String × FVal) :=
  emitRecords ((data.map wireRecords).join) 0 0

lemma libratoEncode_eq_emit (data : List Datum) : ∀ gi ci,
    libratoEncode data gi ci = emitRecords ((data.map wireRecords).join) gi ci := by
  induction data with
  | nil => intro gi ci; simp [libratoEncode, emitRecords]
  | cons d rest ih =>
    intro gi ci
    cases d with
    | counter c =>
      by_cases hs : c.cfg.source ≠ "" <;>
        simp [libratoEncode, wireRecords, emitRecords, ih, hs, getPostKey]
    | gauge g =>
      by_cases hs : g.cfg.source ≠ "" <;>
        simp [libratoEncode, wireRecords, emitRecords, ih, hs, getPostKey]
    | timing t =>
      by_cases hs : t.cfg.source ≠ "" <;>
        simp [libratoEncode, wireRecords, specTimingPrimary, specTimingCompanion,
          emitRecords, ih, hs, getPostKey]

/-- C8: `LibratoStatsFlusher.Flush` form-encodes every `StatDataTiming` in
the batch as exactly two gauge entries — a primary entry carrying name,
count, min, max, sum, sum_squares and source only when Source is non-empty,
followed by a companion entry with name+".90", count = NinthDecileCount,
max = NinthDecileValue, sum = NinthDecileSum and source only when non-empty
— and counter and gauge indices are assigned in first-appearance order
within their respective family. -/
theorem librato_encode_matches_wire_spec (data : List Datum) :
    libratoEncode data 0 0 = specLibratoEncode data :=
  libratoEncode_eq_emit data 0 0

/-- `FlusherConfig` from statstash.go. -/
structure FlusherConfig where
  username : String
  password : String
  apiKey : String
  deriving DecidableEq, Repr

/-- The outcome of the single HTTP POST of `LibratoStatsFlusher.Flush`:
either the transport failed (the POST could not complete), or an HTTP
response with some status code and body was received. -/
inductive LibratoHttpResult where
  | transportErr (e : String)
  | resp (status : Nat) (body : String)
  deriving DecidableEq, Repr

/-- `LibratoStatsFlusher.Flush` (librato.go lines 43-113): encode, POST
with basic auth, and handle the result.  Returns (returned error, log
lines): a transport error is logged and returned; a status outside
{200, 204} is logged but the function returns nil. -/
def libratoFlush (data : List Datum) (cfg : FlusherConfig)
    (transport : List (String × FVal) → String × String → LibratoHttpResult) :
    Option String × List String :=
  let postdata := libratoEncode data 0 0
  match transport postdata (cfg.username, cfg.password) with
  | .transportErr e => (some e, ["failed to flush: HTTP error"])
  | .resp status _ =>
    if status ≠ 200 ∧ status ≠ 204 then (none, ["failed to flush: HTTP status code"])
    else (none, [])

/-- C9: `LibratoStatsFlusher.Flush` returns an error exactly when the HTTP
transport fails; for every response actually received — any status code
included — it returns nil, logging a status failure instead of surfacing
it. -/
theorem librato_flush_error_iff_transport (data : List Datum) (cfg : FlusherConfig)
    (transport : List (String × FVal) → String × String → LibratoHttpResult) :
    (∀ e, (libratoFlush data cfg transport).1 = some e ↔
      transport (libratoEncode data 0 0) (cfg.username, cfg.password) = .transportErr e) ∧
    (∀ status body,
      transport (libratoEncode data 0 0) (cfg.username, cfg.password) = .resp status body →
      (libratoFlush data cfg transport).1 = none) := by
  cases htr : transport (libratoEncode data 0 0) (cfg.username, cfg.password) with
  | transportErr e0 =>
    constructor
    · intro e
      simp [libratoFlush, htr]
    · intro status body hresp
      exact absurd hresp (by simp)
  | resp status0 body0 =>
    constructor
    · intro e
      constructor
      · intro h
        by_cases hok : status0 ≠ 200 ∧ status0 ≠ 204 <;>
          simp [libratoFlush, htr, hok] at h
      · intro h
        exact absurd h (by simp)
    · intro status body _
      by_cases hok : status0 ≠ 200 ∧ status0 ≠ 204 <;>
        simp [libratoFlush, htr, hok]

theorem librato_flush_error_iff_transport_witness :
    (libratoFlush [] { username := "u", password := "p", apiKey := "" }
        (fun _ _ => .resp 500 "oops")).1 = none ∧
    (libratoFlush [] { username := "u", password := "p", apiKey := "" }
        (fun _ _ => .transportErr "down")).1 = some "down" := by
  constructor
  · exact (librato_flush_error_iff_transport [] _ _).2 500 "oops" rfl
  · exact ((librato_flush_error_iff_transport [] _ _).1 "down").mpr rfl

/-! ### Claims about getStatConfig (C2, C10) and the flush gate (C3) -/

/-- A fixed "now" used by the C2 evaluation: some instant on the timeline. -/
def c2now : Int := 7200000000000

/-- The durably stored config of the C2 evaluation: `LastRead` is one hour
before `c2now`, well within the 48h window. -/
def c2stored : StatConfig :=
  { name := "foo", source := "", type := "counter", lastRead := 3600000000000 }

/-- The C2 evaluation state: empty config cache (a miss), and the stored
config under its datastore key. -/
def c2st : St := { cache := [], ds := [("counter-foo-", c2stored)] }

/-- C2 (the code violates the claim): on a config-cache miss with a durable
`StatConfig` whose `LastRead` is only 1h old (< 48h), `getStatConfig`
does NOT keep the record as-is: it refreshes `LastRead = now` and performs
a durable write, so the persisted record changes.  (The source, lines
332-382 of statstash.go, sets `sc.LastRead = now` and calls `ds.Put`
unconditionally; its comments about writing "if it needed the update" are
stale.) -/
theorem getStatConfig_refreshes_within_48h :
    ((getStatConfig "counter" "foo" "" c2now c2st noFaults).1 =
      .ok { name := "foo", source := "", type := "counter", lastRead := c2now }) ∧
    (alookup (getStatConfig "counter" "foo" "" c2now c2st noFaults).2.ds "counter-foo-" =
      some { name := "foo", source := "", type := "counter", lastRead := c2now }) ∧
    (c2now - c2stored.lastRead < 172800000000000) ∧
    ((getStatConfig "counter" "foo" "" c2now c2st noFaults).2.ds ≠ c2st.ds) := by
  refine ⟨by decide, by decide, by decide, by decide⟩

/-- C3: a non-forced `UpdateBackend` call whose period start is less than
one aggregation period past the last-flushed marker (the decoded `ss-lpf`
entry, zero when absent, unreadable or undecodable) returns
`ErrStatFlushTooSoon` with no side effects: the state is unchanged, no
sink call is made, and the datastore is never queried. -/
theorem updateBackend_too_soon_no_side_effects (periodStart : Int)
    (flusher : List Datum → Bool) (st : St) (f : Faults)
    (h : periodStart - getLastPeriodFlushed st.cache f < defaultAggregationPeriod) :
    UpdateBackend periodStart flusher false st f =
      { res := .error .tooSoon, st := st, sinkCalls := [], dsQueried := false } := by
  have hg : goSub periodStart (getLastPeriodFlushed st.cache f) < defaultAggregationPeriod := by
    simp only [goSub, defaultAggregationPeriod] at h ⊢
    split_ifs with h1 h2
    · omega
    · omega
    · exact h
  unfold UpdateBackend
  rw [if_pos ⟨by simp, hg⟩]

/-- A state whose `ss-lpf` marker is the zero time, used by witnesses. -/
def lpfSt : St := { cache := [("ss-lpf", CVal.time 0)], ds := [] }

theorem updateBackend_too_soon_witness :
    (100 - getLastPeriodFlushed lpfSt.cache noFaults < defaultAggregationPeriod) ∧
    UpdateBackend 100 (fun _ => true) false lpfSt noFaults =
      { res := .error .tooSoon, st := lpfSt, sinkCalls := [], dsQueried := false } :=
  ⟨by decide,
   updateBackend_too_soon_no_side_effects 100 (fun _ => true) lpfSt noFaults (by decide)⟩

/-- C10: when `getStatConfig` misses the config cache, materialises and
durably stores a config, but the gob encoding for the 24h config cache
fails, it returns the empty `StatConfig{}` with a nil error; the bucket key
built from that config has empty type, name and source, and a recorder
call on that path proceeds without error. -/
theorem getStatConfig_marshal_failure_empty_config
    (typ name source : String) (now : Int) (st : St) (f : Faults)
    (hmiss : alookup st.cache (getStatConfigMemcacheKey typ name source) = none)
    (hdsg : f.dsGetErr = false) (hdsp : f.dsPutErr = false)
    (hmar : f.confMarshalErr = true) :
    ((getStatConfig typ name source now st f).1 = .ok emptyConfig) ∧
    (emptyConfig.BucketKey now 0 =
      "ss-metric:---" ++ toString (unixOf (getStartOfFlushPeriod now 0))) ∧
    (typ = "gauge" → f.cacheGetErr = false → f.floatsMarshalErr = false →
      f.cacheSetErr = false → (RecordGauge name source 7 0 now st f).1 = .ok ()) := by
  refine ⟨?_, ?_, ?_⟩
  · cases hcg : f.cacheGetErr <;>
      simp [getStatConfig, hmiss, hcg, hdsg, hdsp, hmar]
  · have hstem : bucketKeyStem emptyConfig = "ss-metric:---" := by decide
    show bucketKeyStem emptyConfig ++ _ = _
    rw [hstem]
  · intro htyp hcg hfm hcs
    subst htyp
    simp [RecordGauge, recordGaugeOrTiming, getStatConfig, recordToBucket,
      hmiss, hcg, hdsg, hdsp, hmar, hfm, hcs]

/-- The faults of the C10 witness: only the config gob encoder fails. -/
def marshalFailFaults : Faults := { noFaults with confMarshalErr := true }

/-- The empty state. -/
def emptySt : St := { cache := [], ds := [] }

theorem getStatConfig_marshal_failure_witness :
    (alookup emptySt.cache (getStatConfigMemcacheKey "gauge" "g" "") = none ∧
      marshalFailFaults.dsGetErr = false ∧ marshalFailFaults.dsPutErr = false ∧
      marshalFailFaults.confMarshalErr = true) ∧
    (((getStatConfig "gauge" "g" "" 0 emptySt marshalFailFaults).1 = .ok emptyConfig) ∧
     (emptyConfig.BucketKey 0 0 =
       "ss-metric:---" ++ toString (unixOf (getStartOfFlushPeriod 0 0))) ∧
     ((RecordGauge "g" "" 7 0 0 emptySt marshalFailFaults).1 = .ok ())) := by
  have hmain := getStatConfig_marshal_failure_empty_config "gauge" "g" "" 0 emptySt
    marshalFailFaults (by decide) (by decide) (by decide) (by decide)
  exact ⟨⟨by decide, by decide, by decide, by decide⟩,
    hmain.1, hmain.2.1, hmain.2.2 rfl (by decide) (by decide) (by decide)⟩

/-! ### Helper lemmas about the cache model -/

lemma alookup_cset_self (c : Cache) (k : String) (v : CVal) :
    alookup (cset c k v) k = some v := by
  simp [cset, alookup]

lemma alookup_cset_ne (c : Cache) {k k2 : String} (v : CVal) (h : k ≠ k2) :
    alookup (cset c k v) k2 = alookup c k2 := by
  simp [cset, alookup, h]

lemma alookup_cacheAdd_ne (c : Cache) {k k2 : String} (v : CVal) (h : k ≠ k2) :
    alookup (cacheAdd c k v) k2 = alookup c k2 := by
  unfold cacheAdd
  cases alookup c k with
  | some w => rfl
  | none => simp [alookup, h]

/-- Config-cache keys and metric-bucket keys live in disjoint namespaces. -/
lemma ssconf_ne_ssmetric (x y : String) :
    ("ss-conf:" ++ x) ≠ ("ss-metric:" ++ y) := by
  intro h
  have hd : ("ss-conf:" ++ x).data.take 8 = ("ss-metric:" ++ y).data.take 8 := by rw [h]
  rw [String.data_append, String.data_append] at hd
  rw [List.take_append_of_le_length (by decide),
    List.take_append_of_le_length (by decide)] at hd
  exact absurd hd (by decide)

/-- Every bucket key produced by `StatConfig.BucketKey` starts with the
`ss-metric:` namespace. -/
lemma bucketKey_eq_metric (sc : StatConfig) (t off : Int) :
    sc.BucketKey t off =
      "ss-metric:" ++ (sc.type ++ "-" ++ sc.name ++ "-" ++ sc.source ++ "-" ++
        toString (unixOf (getStartOfFlushPeriod t off))) := by
  simp [StatConfig.BucketKey, bucketKeyStem, String.append_assoc]

/-- The config-cache key never equals a metric-bucket key. -/
lemma confKey_ne_metric (typ name source x : String) :
    getStatConfigMemcacheKey typ name source ≠ ("ss-metric:" ++ x) :=
  ssconf_ne_ssmetric (getStatConfigKeyName typ name source) x

/-- `getStatConfig` touches only the datastore and the `ss-conf:` cache
namespace: lookups of `ss-metric:` keys are unchanged. -/
lemma getStatConfig_preserves_metric (typ name source : String) (now : Int)
    (st : St) (f : Faults) (x : String) :
    alookup (getStatConfig typ name source now st f).2.cache ("ss-metric:" ++ x) =
      alookup st.cache ("ss-metric:" ++ x) := by
  unfold getStatConfig
  dsimp only
  split
  all_goals first
    | rfl
    | (split <;> rfl)
    | (split_ifs <;> first
        | rfl
        | exact alookup_cacheAdd_ne _ _ (confKey_ne_metric typ name source x))

lemma getStatConfig_preserves_bucketCount (typ name source : String) (now : Int)
    (st : St) (f : Faults) (x : String) :
    bucketCount (getStatConfig typ name source now st f).2.cache ("ss-metric:" ++ x) =
      bucketCount st.cache ("ss-metric:" ++ x) := by
  unfold bucketCount
  rw [getStatConfig_preserves_metric]

lemma bucketCount_cset_counter (c : Cache) (k : String) (n : Nat) :
    bucketCount (cset c k (.counter n)) k = n := by
  simp [bucketCount, cset, alookup]

lemma bucketCount_cset_ne (c : Cache) {k k2 : String} (v : CVal) (h : k ≠ k2) :
    bucketCount (cset c k v) k2 = bucketCount c k2 := by
  simp [bucketCount, cset, alookup, h]

/-- A successful `recordToBucket` writes the mutated list under the bucket
key (miss or ignored-decode-failure starts from the empty list; timing
appends; gauge replaces with a singleton). -/
lemma recordToBucket_ok (typ bk : String) (v : ℚ) (st : St) (f : Faults)
    (hok : (recordToBucket typ bk v st f).1 = .ok ()) :
    (recordToBucket typ bk v st f).2.cache =
      cset st.cache bk (.floats (
        if typ = "timing" then
          (match alookup st.cache bk with
           | none => ([] : List ℚ)
           | some w => (decodeFloats w).getD []) ++ [v]
        else if typ = "gauge" then [v]
        else
          match alookup st.cache bk with
          | none => ([] : List ℚ)
          | some w => (decodeFloats w).getD [])) := by
  cases hcg : f.cacheGetErr <;> cases hfm : f.floatsMarshalErr <;>
    cases hcs : f.cacheSetErr <;>
    simp [recordToBucket, hcg, hfm, hcs] at hok ⊢

/-- C5: after any successful `RecordGauge`, the gauge's bucket holds the
singleton list of that call's value, regardless of the bucket's prior
contents; a successful `RecordTiming` instead appends its value to the
bucket's existing list (an absent bucket counts as the empty list). -/
theorem record_gauge_singleton_timing_append (name source : String)
    (v sr draw : ℚ) (now : Int) (st : St) (f : Faults) :
    (∀ sc st2, getStatConfig "gauge" name source now st f = (.ok sc, st2) →
      (RecordGauge name source v draw now st f).1 = .ok () →
      alookup (RecordGauge name source v draw now st f).2.cache (sc.BucketKey now 0) =
        some (.floats [v])) ∧
    (∀ sc st2, getStatConfig "timing" name source now st f = (.ok sc, st2) →
      (RecordTiming name source v sr draw now st f).1 = .ok () →
      ((alookup st.cache (sc.BucketKey now 0) = none →
        alookup (RecordTiming name source v sr draw now st f).2.cache (sc.BucketKey now 0) =
          some (.floats [v])) ∧
       (∀ l, alookup st.cache (sc.BucketKey now 0) = some (.floats l) →
        alookup (RecordTiming name source v sr draw now st f).2.cache (sc.BucketKey now 0) =
          some (.floats (l ++ [v]))))) := by
  constructor
  · intro sc st2 hcfg hok
    have hnotsample : ¬((1 : ℚ) < 1 ∧ draw > 1) := by
      intro hh
      exact absurd hh.1 (lt_irrefl 1)
    unfold RecordGauge recordGaugeOrTiming at hok ⊢
    rw [if_neg hnotsample, hcfg] at hok ⊢
    have := recordToBucket_ok "gauge" (sc.BucketKey now 0) v st2 f hok
    rw [this]
    rw [if_neg (by decide : ¬("gauge" : String) = "timing"), if_pos rfl]
    exact alookup_cset_self _ _ _
  · intro sc st2 hcfg hok
    have hmetric : alookup st2.cache (sc.BucketKey now 0) =
        alookup st.cache (sc.BucketKey now 0) := by
      have h2 : st2 = (getStatConfig "timing" name source now st f).2 := by rw [hcfg]
      rw [h2, bucketKey_eq_metric]
      exact getStatConfig_preserves_metric _ _ _ _ _ _ _
    by_cases hsample : (sr : ℚ) < 1 ∧ draw > sr
    · unfold RecordTiming recordGaugeOrTiming at hok
      rw [if_pos hsample] at hok
      exact absurd hok (by simp)
    · unfold RecordTiming recordGaugeOrTiming at hok ⊢
      rw [if_neg hsample, hcfg] at hok ⊢
      have hw := recordToBucket_ok "timing" (sc.BucketKey now 0) v st2 f hok
      rw [hw, if_pos rfl]
      constructor
      · intro hnone
        rw [hmetric.trans hnone]
        exact alookup_cset_self _ _ _
      · intro l hsome
        rw [hmetric.trans hsome]
        simp [decodeFloats]
        exact alookup_cset_self _ _ _

/-- Gauge config of the C5 witness state. -/
def c5cfgG : StatConfig := { name := "g", source := "", type := "gauge", lastRead := 0 }

/-- Timing config of the C5 witness state. -/
def c5cfgT : StatConfig := { name := "g", source := "", type := "timing", lastRead := 0 }

/-- The C5 witness state: both configs cached, gauge bucket holding stale
contents, timing bucket holding `[5]`. -/
def c5st : St :=
  { cache := [("ss-conf:gauge-g-", .config c5cfgG), ("ss-conf:timing-g-", .config c5cfgT),
      (c5cfgG.BucketKey 0 0, .floats [1, 2, 3]), (c5cfgT.BucketKey 0 0, .floats [5])],
    ds := [] }

theorem record_gauge_singleton_timing_append_witness :
    (getStatConfig "gauge" "g" "" 0 c5st noFaults = (.ok c5cfgG, c5st) ∧
      (RecordGauge "g" "" 7 0 0 c5st noFaults).1 = .ok () ∧
      getStatConfig "timing" "g" "" 0 c5st noFaults = (.ok c5cfgT, c5st) ∧
      (RecordTiming "g" "" 7 1 0 0 c5st noFaults).1 = .ok () ∧
      alookup c5st.cache (c5cfgT.BucketKey 0 0) = some (.floats [5])) ∧
    (alookup (RecordGauge "g" "" 7 0 0 c5st noFaults).2.cache (c5cfgG.BucketKey 0 0) =
      some (.floats [7])) ∧
    (alookup (RecordTiming "g" "" 7 1 0 0 c5st noFaults).2.cache (c5cfgT.BucketKey 0 0) =
      some (.floats [5, 7])) := by
  refine ⟨⟨by decide, by decide, by decide, by decide, by decide⟩, ?_, ?_⟩
  · exact (record_gauge_singleton_timing_append "g" "" 7 0 0 0 c5st noFaults).1
      c5cfgG c5st (by decide) (by decide)
  · exact ((record_gauge_singleton_timing_append "g" "" 7 1 0 0 c5st noFaults).2
      c5cfgT c5st (by decide) (by decide)).2 [5] (by decide)

/-- Counter config of the C6 evaluation. -/
def c6cfg : StatConfig := { name := "foo", source := "", type := "counter", lastRead := 0 }

/-- The C6 evaluation state: the counter config is cached and its bucket
holds the count 5. -/
def c6st : St :=
  { cache := [("ss-conf:counter-foo-", .config c6cfg), (c6cfg.BucketKey 0 0, .counter 5)],
    ds := [] }

/-- C6 counterexample: `IncrementCounterBy` accepts any int64 delta and
passes it to the cache increment, so a negative delta decreases the
bucket: from a stored count of 5, `IncrementCounterBy("foo", "", -3)`
succeeds and leaves the bucket at 2 < 5. -/
theorem counter_decreases_on_negative_delta :
    bucketCount c6st.cache (c6cfg.BucketKey 0 0) = 5 ∧
    (IncrementCounterBy "foo" "" (-3) 0 c6st noFaults).1 = .ok () ∧
    bucketCount (IncrementCounterBy "foo" "" (-3) 0 c6st noFaults).2.cache
      (c6cfg.BucketKey 0 0) = 2 ∧
    (2 : Nat) < 5 := by
  refine ⟨by decide, by decide, by decide, by decide⟩

/-- C6 (amended): for every sequence of `IncrementCounter` /
`IncrementCounterBy` calls whose deltas are nonnegative (and whose bucket
value does not overflow uint64), the stored count of every counter bucket
after each call is greater than or equal to its count before the call; a
negative delta can decrease the bucket (see the counterexample). -/
theorem counter_monotone_nonneg_delta (name source : String) (delta : Int)
    (now : Int) (st : St) (f : Faults) (x : String)
    (hd : 0 ≤ delta)
    (hnof : bucketCount st.cache ("ss-metric:" ++ x) + delta.toNat < 18446744073709551616) :
    bucketCount (IncrementCounterBy name source delta now st f).2.cache ("ss-metric:" ++ x) ≥
      bucketCount st.cache ("ss-metric:" ++ x) := by
  unfold IncrementCounterBy
  rcases hg : getStatConfig "counter" name source now st f with ⟨res, st2⟩
  have hpres : bucketCount st2.cache ("ss-metric:" ++ x) =
      bucketCount st.cache ("ss-metric:" ++ x) := by
    have h2 : st2 = (getStatConfig "counter" name source now st f).2 := by rw [hg]
    rw [h2]
    exact getStatConfig_preserves_bucketCount _ _ _ _ _ _ _
  cases res with
  | error e => simp [hpres]
  | ok sc =>
    rcases hinc : cacheIncrement (alookup st2.cache (sc.BucketKey now 0)) delta 0 with e | n
    · simp [hinc, hpres]
    · simp only [hinc]
      by_cases hkb : sc.BucketKey now 0 = "ss-metric:" ++ x
      · have hbase : n = bucketCount st2.cache ("ss-metric:" ++ x) + delta.toNat := by
          rw [hkb] at hinc
          unfold cacheIncrement at hinc
          rcases hv : alookup st2.cache ("ss-metric:" ++ x) with _ | w
          · rw [hv] at hinc
            have hb2 : bucketCount st2.cache ("ss-metric:" ++ x) = 0 := by
              unfold bucketCount; rw [hv]
            rw [← hpres] at hnof
            rw [hb2] at hnof ⊢
            simp [applyDelta, hd] at hinc
            omega
          · cases w with
            | counter m =>
              rw [hv] at hinc
              have hb2 : bucketCount st2.cache ("ss-metric:" ++ x) = m := by
                unfold bucketCount; rw [hv]
              rw [← hpres] at hnof
              rw [hb2] at hnof ⊢
              simp [applyDelta, hd] at hinc
              omega
            | floats l => rw [hv] at hinc; simp at hinc
            | time t => rw [hv] at hinc; simp at hinc
            | config sc2 => rw [hv] at hinc; simp at hinc
            | raw b => rw [hv] at hinc; simp at hinc
        rw [← hkb, bucketCount_cset_counter, hbase, hkb, hpres]
        omega
      · rw [bucketCount_cset_ne _ _ hkb, hpres]

theorem counter_monotone_nonneg_delta_witness :
    ((0 : Int) ≤ 3 ∧
      bucketCount c6st.cache ("ss-metric:" ++ "counter-foo---62135596800") + (3 : Int).toNat <
        18446744073709551616) ∧
    bucketCount (IncrementCounterBy "foo" "" 3 0 c6st noFaults).2.cache
        ("ss-metric:" ++ "counter-foo---62135596800") ≥
      bucketCount c6st.cache ("ss-metric:" ++ "counter-foo---62135596800") :=
  ⟨⟨by decide, by decide⟩,
   counter_monotone_nonneg_delta "foo" "" 3 0 c6st noFaults "counter-foo---62135596800"
     (by decide) (by decide)⟩

/-- C4: `UpdateBackend` advances the `ss-lpf` marker to the period start
exactly when the sink was invoked on a non-empty summary batch and
returned success; a sink failure propagates the error with `ss-lpf`
unchanged; and a cache multi-get error, an empty summary batch or no
active configs all return ok without invoking the sink and without
advancing `ss-lpf`.  (The hypothesis `hset` says the cache accepts the
marker write.) -/
theorem updateBackend_lpf_advance_iff_sink_success (periodStart : Int)
    (flusher : List Datum → Bool) (force : Bool) (st : St) (f : Faults)
    (hset : f.cacheSetErr = false) :
    ((UpdateBackend periodStart flusher force st f).st ≠ st →
      ∃ b, (UpdateBackend periodStart flusher force st f).sinkCalls = [b] ∧ b ≠ [] ∧
        flusher b = true ∧
        (UpdateBackend periodStart flusher force st f).st =
          { st with cache := cset st.cache "ss-lpf" (.time periodStart) } ∧
        (UpdateBackend periodStart flusher force st f).res = .ok ()) ∧
    (∀ b, (UpdateBackend periodStart flusher force st f).sinkCalls = [b] →
      (b ≠ [] ∧
       (flusher b = true →
         (UpdateBackend periodStart flusher force st f).st =
           { st with cache := cset st.cache "ss-lpf" (.time periodStart) } ∧
         (UpdateBackend periodStart flusher force st f).res = .ok ()) ∧
       (flusher b = false →
         (UpdateBackend periodStart flusher force st f).res = .error .sink ∧
         (UpdateBackend periodStart flusher force st f).st = st))) ∧
    ((force = true ∨
        ¬ goSub periodStart (getLastPeriodFlushed st.cache f) < defaultAggregationPeriod) →
      f.dsIterErr = false →
      (f.getMultiErr = true ∨ (activeConfigList st.ds periodStart 0).isEmpty = true ∨
        buildData (getMultiWithCfg st.cache (activeConfigList st.ds periodStart 0)) = .ok []) →
      (UpdateBackend periodStart flusher force st f).res = .ok () ∧
      (UpdateBackend periodStart flusher force st f).sinkCalls = [] ∧
      (UpdateBackend periodStart flusher force st f).st = st) := by
  by_cases h1 : ¬force ∧
      goSub periodStart (getLastPeriodFlushed st.cache f) < defaultAggregationPeriod
  · have hu : UpdateBackend periodStart flusher force st f =
        { res := .error .tooSoon, st := st, sinkCalls := [], dsQueried := false } := by
      unfold UpdateBackend
      rw [if_pos h1]
    refine ⟨?_, ?_, ?_⟩
    · intro hne; rw [hu] at hne; exact absurd rfl hne
    · intro b hb; rw [hu] at hb; exact absurd hb (by simp)
    · intro hgate _ _
      rcases h1 with ⟨hnf, hts⟩
      rcases hgate with hforce | hg
      · exact absurd hforce hnf
      · exact absurd hts hg
  · by_cases h2 : f.dsIterErr = true
    · have hu : UpdateBackend periodStart flusher force st f =
          { res := .error .activeCfg, st := st, sinkCalls := [], dsQueried := true } := by
        unfold UpdateBackend
        rw [if_neg h1, if_pos h2]
      refine ⟨?_, ?_, ?_⟩
      · intro hne; rw [hu] at hne; exact absurd rfl hne
      · intro b hb; rw [hu] at hb; exact absurd hb (by simp)
      · intro _ hiter _
        rw [hiter] at h2
        exact absurd h2 (by simp)
    · by_cases h3 : (activeConfigList st.ds periodStart 0).isEmpty = true
      · have hu : UpdateBackend periodStart flusher force st f =
            { res := .ok (), st := st, sinkCalls := [], dsQueried := true } := by
          unfold UpdateBackend
          rw [if_neg h1, if_neg h2, if_pos h3]
        refine ⟨?_, ?_, ?_⟩
        · intro hne; rw [hu] at hne; exact absurd rfl hne
        · intro b hb; rw [hu] at hb; exact absurd hb (by simp)
        · intro _ _ _; rw [hu]; exact ⟨rfl, rfl, rfl⟩
      · by_cases h4 : f.getMultiErr = true
        · have hu : UpdateBackend periodStart flusher force st f =
              { res := .ok (), st := st, sinkCalls := [], dsQueried := true } := by
            unfold UpdateBackend
            rw [if_neg h1, if_neg h2, if_neg h3, if_pos h4]
          refine ⟨?_, ?_, ?_⟩
          · intro hne; rw [hu] at hne; exact absurd rfl hne
          · intro b hb; rw [hu] at hb; exact absurd hb (by simp)
          · intro _ _ _; rw [hu]; exact ⟨rfl, rfl, rfl⟩
        · rcases hbd : buildData (getMultiWithCfg st.cache (activeConfigList st.ds periodStart 0))
            with e | data
          · have hu : UpdateBackend periodStart flusher force st f =
                { res := .error e, st := st, sinkCalls := [], dsQueried := true } := by
              unfold UpdateBackend
              rw [if_neg h1, if_neg h2, if_neg h3, if_neg h4, hbd]
            refine ⟨?_, ?_, ?_⟩
            · intro hne; rw [hu] at hne; exact absurd rfl hne
            · intro b hb; rw [hu] at hb; exact absurd hb (by simp)
            · intro _ _ hno
              rcases hno with hgm | hemp | hok
              · exact absurd hgm h4
              · exact absurd hemp h3
              · exact absurd hok (by simp)
          · by_cases h5 : data.isEmpty = true
            · have hu : UpdateBackend periodStart flusher force st f =
                  { res := .ok (), st := st, sinkCalls := [], dsQueried := true } := by
                unfold UpdateBackend
                rw [if_neg h1, if_neg h2, if_neg h3, if_neg h4, hbd]
                dsimp only
                rw [if_pos h5]
              refine ⟨?_, ?_, ?_⟩
              · intro hne; rw [hu] at hne; exact absurd rfl hne
              · intro b hb; rw [hu] at hb; exact absurd hb (by simp)
              · intro _ _ _; rw [hu]; exact ⟨rfl, rfl, rfl⟩
            · have hdne : data ≠ [] := by
                intro hd; rw [hd] at h5; exact h5 rfl
              by_cases h6 : flusher data = true
              · have hu : UpdateBackend periodStart flusher force st f =
                    { res := .ok (),
                      st := { st with cache := cset st.cache "ss-lpf" (.time periodStart) },
                      sinkCalls := [data], dsQueried := true } := by
                  unfold UpdateBackend
                  rw [if_neg h1, if_neg h2, if_neg h3, if_neg h4, hbd]
                  dsimp only
                  rw [if_neg h5, if_pos h6]
                  simp [updateLastPeriodFlushed, hset]
                refine ⟨?_, ?_, ?_⟩
                · intro _
                  exact ⟨data, by rw [hu], hdne, h6, by rw [hu], by rw [hu]⟩
                · intro b hb
                  rw [hu] at hb
                  have hdb : data = b := by simpa using hb
                  subst hdb
                  refine ⟨hdne, fun _ => ⟨by rw [hu], by rw [hu]⟩, fun hfalse => ?_⟩
                  rw [h6] at hfalse
                  exact absurd hfalse (by simp)
                · intro _ _ hno
                  rcases hno with hgm | hemp | hok
                  · exact absurd hgm h4
                  · exact absurd hemp h3
                  · have hnil := Except.ok.inj hok
                    rw [hnil] at h5
                    exact absurd rfl h5
              · have hu : UpdateBackend periodStart flusher force st f =
                    { res := .error .sink, st := st, sinkCalls := [data],
                      dsQueried := true } := by
                  unfold UpdateBackend
                  rw [if_neg h1, if_neg h2, if_neg h3, if_neg h4, hbd]
                  dsimp only
                  rw [if_neg h5, if_neg h6]
                refine ⟨?_, ?_, ?_⟩
                · intro hne; rw [hu] at hne; exact absurd rfl hne
                · intro b hb
                  rw [hu] at hb
                  have hdb : data = b := by simpa using hb
                  subst hdb
                  exact ⟨hdne, fun htrue => absurd htrue h6,
                    fun _ => ⟨by rw [hu], by rw [hu]⟩⟩
                · intro _ _ hno
                  rcases hno with hgm | hemp | hok
                  · exact absurd hgm h4
                  · exact absurd hemp h3
                  · have hnil := Except.ok.inj hok
                    rw [hnil] at h5
                    exact absurd rfl h5

/-- Counter config of the C4 witness. -/
def c4cfg : StatConfig := { name := "bar", source := "", type := "counter", lastRead := 0 }

/-- The C4 witness state: one active config whose bucket holds count 7. -/
def c4st : St :=
  { cache := [(c4cfg.BucketKey 0 0, .counter 7)], ds := [("counter-bar-", c4cfg)] }

theorem updateBackend_lpf_advance_witness :
    (noFaults.cacheSetErr = false ∧
      (UpdateBackend 0 (fun _ => true) true c4st noFaults).sinkCalls =
        [[Datum.counter { cfg := c4cfg, count := 7 }]]) ∧
    ((UpdateBackend 0 (fun _ => true) true c4st noFaults).st =
      { c4st with cache := cset c4st.cache "ss-lpf" (.time 0) } ∧
     (UpdateBackend 0 (fun _ => true) true c4st noFaults).res = .ok ()) := by
  have happ := (updateBackend_lpf_advance_iff_sink_success 0 (fun _ => true) true c4st
    noFaults rfl).2.1 [Datum.counter { cfg := c4cfg, count := 7 }] (by decide)
  exact ⟨⟨rfl, by decide⟩, happ.2.1 rfl⟩
